import Mathlib

/-!
Verification of the embedding-and-similarity subsystem of the image
processing backend (`app/services/image_processing.py`,
`app/services/vector_service.py`, `app/api/v1/images.py`,
`app/models/image.py`).

Python floats are modelled as real numbers; byte strings as `List ℕ`;
hex digests as `List (Fin 16)` (the sequence of hex-digit values of the
hexdigest string).  The `hashlib` digests and the `random` module are
external libraries, so they are parameters of the model: a `HashModel`
supplies the digest functions (with their fixed hexdigest lengths) and a
`RandomModel σ` supplies `random.seed` / `random.uniform(-1, 1)` acting
on an explicit generator state `σ` — the Python module keeps this state
in a process-wide global, which the model threads explicitly.
-/

/-- `sum(x**2 for x in v)` — image_processing.py line 148. -/
def sumSq (v : List ℝ) : ℝ := (v.map (fun x => x ^ 2)).sum

/-- `math.sqrt(sum(x**2 for x in v))` — image_processing.py line 148. -/
noncomputable def l2norm (v : List ℝ) : ℝ := Real.sqrt (sumSq v)

/-- Dot product of two vectors (componentwise product, summed). -/
def dotp (a b : List ℝ) : ℝ := (List.zipWith (fun x y => x * y) a b).sum

/-- Cosine similarity `dot(a,b) / (‖a‖·‖b‖)`, the value pgvector's
`1 - (a <=> b)` computes for nonzero vectors. -/
noncomputable def cosineSim (a b : List ℝ) : ℝ := dotp a b / (l2norm a * l2norm b)

/-- Lines 147-151 of image_processing.py: `norm = math.sqrt(...)`;
`if norm > 0: embedding = [x / norm for x in embedding]`. -/
noncomputable def normalizeVec (v : List ℝ) : List ℝ :=
  if 0 < l2norm v then v.map (fun x => x / l2norm v) else v

theorem sumSq_nonneg (v : List ℝ) : 0 ≤ sumSq v := by
  refine List.sum_nonneg ?_
  intro x hx
  obtain ⟨y, _, rfl⟩ := List.mem_map.mp hx
  exact sq_nonneg y

theorem sumSq_cons (x : ℝ) (v : List ℝ) : sumSq (x :: v) = x ^ 2 + sumSq v := by
  simp [sumSq]

theorem l2norm_nonneg (v : List ℝ) : 0 ≤ l2norm v := Real.sqrt_nonneg _

theorem l2norm_sq (v : List ℝ) : l2norm v ^ 2 = sumSq v :=
  Real.sq_sqrt (sumSq_nonneg v)

theorem l2norm_eq_zero_iff (v : List ℝ) : l2norm v = 0 ↔ sumSq v = 0 := by
  constructor
  · intro h
    have h2 := l2norm_sq v
    rw [h] at h2
    simpa using h2.symm
  · intro h
    simp [l2norm, h]

theorem sumSq_map_div (v : List ℝ) (c : ℝ) :
    sumSq (v.map (fun x => x / c)) = sumSq v / c ^ 2 := by
  induction v with
  | nil => simp [sumSq]
  | cons x v ih =>
      simp only [List.map_cons, sumSq_cons, ih, div_pow]
      rw [div_add_div_same]

/-- Cauchy-Schwarz for the truncating list dot product. -/
theorem dotp_sq_le (a b : List ℝ) : dotp a b ^ 2 ≤ sumSq a * sumSq b := by
  induction a generalizing b with
  | nil =>
      simp only [dotp, List.zipWith_nil_left, List.sum_nil]
      norm_num
      exact mul_nonneg (sumSq_nonneg []) (sumSq_nonneg b)
  | cons x a ih =>
      cases b with
      | nil =>
          simp only [dotp, List.zipWith_nil_right, List.sum_nil]
          norm_num
          exact mul_nonneg (sumSq_nonneg (x :: a)) (sumSq_nonneg [])
      | cons y b =>
          have h := ih b
          have hA := sumSq_nonneg a
          have hB := sumSq_nonneg b
          have hd : dotp (x :: a) (y :: b) = x * y + dotp a b := by
            simp [dotp]
          rw [hd, sumSq_cons, sumSq_cons]
          rcases eq_or_lt_of_le hB with hB0 | hBpos
          · have hd2 : dotp a b ^ 2 ≤ 0 := by
              calc dotp a b ^ 2 ≤ sumSq a * sumSq b := h
              _ = 0 := by rw [← hB0, mul_zero]
            have hd0 : dotp a b = 0 := by
              have := sq_nonneg (dotp a b)
              nlinarith [sq_abs (dotp a b), abs_nonneg (dotp a b)]
            rw [hd0, ← hB0]
            nlinarith [mul_nonneg hA (sq_nonneg y)]
          · nlinarith [sq_nonneg (x * sumSq b - y * dotp a b),
              mul_nonneg (sub_nonneg.mpr h) (add_nonneg (sq_nonneg y) hB), hBpos]

theorem dotp_bounds (a b : List ℝ) :
    -(l2norm a * l2norm b) ≤ dotp a b ∧ dotp a b ≤ l2norm a * l2norm b := by
  have h := dotp_sq_le a b
  have hn : (l2norm a * l2norm b) ^ 2 = sumSq a * sumSq b := by
    rw [mul_pow, l2norm_sq, l2norm_sq]
  have hnn : 0 ≤ l2norm a * l2norm b := mul_nonneg (l2norm_nonneg a) (l2norm_nonneg b)
  exact abs_le_of_sq_le_sq' (by rw [hn]; exact h) hnn

theorem cosineSim_le_one (a b : List ℝ) : cosineSim a b ≤ 1 := by
  unfold cosineSim
  rcases eq_or_lt_of_le (mul_nonneg (l2norm_nonneg a) (l2norm_nonneg b)) with h | h
  · rw [← h, div_zero]
    exact zero_le_one
  · exact (div_le_one h).mpr (dotp_bounds a b).2

theorem neg_one_le_cosineSim (a b : List ℝ) : -1 ≤ cosineSim a b := by
  unfold cosineSim
  rcases eq_or_lt_of_le (mul_nonneg (l2norm_nonneg a) (l2norm_nonneg b)) with h | h
  · rw [← h, div_zero]
    norm_num
  · rw [le_div_iff₀ h]
    simpa using (dotp_bounds a b).1

theorem sumSq_normalize_pos (v : List ℝ) (h : 0 < sumSq v) :
    sumSq (normalizeVec v) = 1 := by
  have hl : 0 < l2norm v := Real.sqrt_pos.mpr h
  unfold normalizeVec
  rw [if_pos hl, sumSq_map_div, l2norm_sq]
  exact div_self (ne_of_gt h)

theorem normalizeVec_zero (v : List ℝ) (h : sumSq v = 0) : normalizeVec v = v := by
  unfold normalizeVec
  rw [if_neg]
  rw [(l2norm_eq_zero_iff v).mpr h]
  exact lt_irrefl 0

/-- `settings.EMBEDDING_DIMENSION` (config.py line 62). -/
def EMBEDDING_DIMENSION : ℕ := 512

/-- `settings.SIMILARITY_THRESHOLD` (config.py line 63). -/
noncomputable def SIMILARITY_THRESHOLD : ℝ := 0.7

/-- The `hashlib` digest functions used by `generate_mock_embedding`
(image_processing.py lines 129-131), as parameters of the model: a hex
digest is the list of its hex-digit values.  `sha256.hexdigest()` has 64
hex digits and `md5.hexdigest()` has 32. -/
structure HashModel where
  sha256hex : List ℕ → List (Fin 16)
  md5hex : List ℕ → List (Fin 16)
  sha256_len : ∀ b, (sha256hex b).length = 64
  md5_len : ∀ b, (md5hex b).length = 32

/-- The Python `random` module, as a parameter of the model: `σ` is the
generator state (a process-wide global in Python, threaded explicitly
here).  `seedNat` is `random.seed(n)` for an int `n`, `seedHexStr` is
`random.seed(s)` applied to the hex-digest string, and `uniform` is
`random.uniform(-1, 1)`, returning a drawn value and the new state. -/
structure RandomModel (σ : Type) where
  seedNat : ℕ → σ
  seedHexStr : List (Fin 16) → σ
  uniform : σ → ℝ × σ

/-- ASCII byte of a lowercase hex digit, used to model
`f"{content_hash}_{filename_hash}".encode()`. -/
def hexDigitByte (d : Fin 16) : ℕ := if d.val < 10 then 48 + d.val else 87 + d.val

/-- `int(h, 16)` of (a slice of) a hex digest. -/
def hexToNat (l : List (Fin 16)) : ℕ := l.foldl (fun a d => 16 * a + d.val) 0

/-- Line 131: `hashlib.sha256(f"{content_hash}_{filename_hash}".encode()).hexdigest()`
with `content_hash = sha256(content).hexdigest()` (line 129) and
`filename_hash = md5(filename.encode()).hexdigest()` (line 130). -/
def combinedDigest (H : HashModel) (content filename : List ℕ) : List (Fin 16) :=
  H.sha256hex
    ((H.sha256hex content).map hexDigitByte ++ [95] ++ (H.md5hex filename).map hexDigitByte)

/-- Lines 140-141: the per-dimension seed
`int(combined_hash[:8], 16) + i + int(combined_hash[i % len(combined_hash)], 16)`. -/
def seedAt (combined : List (Fin 16)) (i : ℕ) : ℕ :=
  hexToNat (combined.take 8) + i + (combined.getD (i % combined.length) 0).val

/-- The loop of lines 137-145: for each dimension, reseed the generator
with `seedAt i` and draw one `uniform(-1, 1)` value; the generator state
is threaded through the whole loop. -/
def drawLoop (R : RandomModel σ) (f : ℕ → ℕ) : ℕ → ℕ → σ → List ℝ × σ
  | _, 0, s => ([], s)
  | i, Nat.succ n, _ =>
      let p := R.uniform (R.seedNat (f i))
      let rest := drawLoop R f (i + 1) n p.2
      (p.1 :: rest.1, rest.2)

/-- The raw (pre-normalization) vector drawn by the loop, starting from
global generator state `s` as left by line 134's `random.seed(combined_hash)`. -/
def rawEmbedding (H : HashModel) (R : RandomModel σ) (content filename : List ℕ)
    (D : ℕ) (s : σ) : List ℝ :=
  (drawLoop R (seedAt (combinedDigest H content filename)) 0 D
    (R.seedHexStr (combinedDigest H content filename))).1

/-- `ImageProcessingService.generate_mock_embedding` (image_processing.py
lines 113-152): hash content and filename, seed the global generator with
the combined digest (line 134), draw `D` per-dimension reseeded uniform
values, and unit-normalize.  `s` is the global `random` state on entry;
the pair returned is (embedding, global state on exit). -/
noncomputable def generate_mock_embedding (H : HashModel) (R : RandomModel σ)
    (content filename : List ℕ) (D : ℕ) (s : σ) : List ℝ × σ :=
  let combined := combinedDigest H content filename
  let s1 := R.seedHexStr combined
  let raw := drawLoop R (seedAt combined) 0 D s1
  (normalizeVec raw.1, raw.2)

/-- The variant of `generate_mock_embedding` without line 134's initial
`random.seed(combined_hash)`: the loop starts from the caller's global
generator state `s` unchanged. -/
noncomputable def generate_mock_embedding_noInitialSeed (H : HashModel) (R : RandomModel σ)
    (content filename : List ℕ) (D : ℕ) (s : σ) : List ℝ × σ :=
  let combined := combinedDigest H content filename
  let raw := drawLoop R (seedAt combined) 0 D s
  (normalizeVec raw.1, raw.2)

/-- The drawn values do not depend on the generator state the loop starts
from: every iteration reseeds before drawing. -/
theorem drawLoop_fst_state_free (R : RandomModel σ) (f : ℕ → ℕ) (i n : ℕ) (s t : σ) :
    (drawLoop R f i n s).1 = (drawLoop R f i n t).1 := by
  cases n with
  | zero => rfl
  | succ n => rfl

theorem generate_mock_embedding_eq_normalize (H : HashModel) (R : RandomModel σ)
    (content filename : List ℕ) (D : ℕ) (s : σ) :
    (generate_mock_embedding H R content filename D s).1 =
      normalizeVec (rawEmbedding H R content filename D s) := rfl

/-- Constant hash functions, used only to instantiate witnesses. -/
def hashConst : HashModel where
  sha256hex := fun _ => List.replicate 64 0
  md5hex := fun _ => List.replicate 32 0
  sha256_len := fun _ => List.length_replicate 64 0
  md5_len := fun _ => List.length_replicate 32 0

/-- A stateless generator always drawing 1, used only in witnesses. -/
def rngOne : RandomModel Unit where
  seedNat := fun _ => ()
  seedHexStr := fun _ => ()
  uniform := fun _ => (1, ())

/-- A stateless generator always drawing 0, used only in witnesses. -/
def rngZero : RandomModel Unit where
  seedNat := fun _ => ()
  seedHexStr := fun _ => ()
  uniform := fun _ => (0, ())

theorem rawEmbedding_rngOne : rawEmbedding hashConst rngOne [] [] 2 () = [1, 1] := rfl

theorem rawEmbedding_rngZero : rawEmbedding hashConst rngZero [] [] 2 () = [0, 0] := rfl

/-- C1: for every byte content and label, `generate_mock_embedding` returns
the same embedding on every invocation: whatever the hash and random-module
implementations are, and whatever global generator states `s` and `t` two
invocations start from (the only call-history-, process- or machine-dependent
inputs), the returned vectors coincide — the output is a pure function of
(content, label).  This holds because line 134 reseeds the global generator
from the content/label digest before any draw. -/
theorem generate_mock_embedding_state_independent {σ : Type} (H : HashModel)
    (R : RandomModel σ) (content filename : List ℕ) (D : ℕ) (s t : σ) :
    (generate_mock_embedding H R content filename D s).1 =
      (generate_mock_embedding H R content filename D t).1 := rfl

/-- C10: the initial `random.seed(combined_hash)` of line 134 has no effect
on the output: `generate_mock_embedding` returns the same embedding as the
variant that omits that call, for every starting global state, because every
per-dimension draw of the loop is preceded by its own `random.seed` (line
141) which fully determines the generator state. -/
theorem generate_mock_embedding_initial_seed_redundant {σ : Type} (H : HashModel)
    (R : RandomModel σ) (content filename : List ℕ) (D : ℕ) (s : σ) :
    (generate_mock_embedding H R content filename D s).1 =
      (generate_mock_embedding_noInitialSeed H R content filename D s).1 := by
  unfold generate_mock_embedding generate_mock_embedding_noInitialSeed
  exact congrArg normalizeVec
    (drawLoop_fst_state_free R (seedAt (combinedDigest H content filename)) 0 D
      (R.seedHexStr (combinedDigest H content filename)) s)

/-- C2: if the raw vector drawn before normalization has nonzero L2 norm,
the embedding returned by `generate_mock_embedding` has L2 norm within 1e-3
of 1.0 (in exact arithmetic it is exactly 1); if the raw norm is zero, the
raw vector is returned unmodified, so no division by zero occurs. -/
theorem generate_mock_embedding_normalization {σ : Type} (H : HashModel)
    (R : RandomModel σ) (content filename : List ℕ) (D : ℕ) (s : σ) :
    (l2norm (rawEmbedding H R content filename D s) ≠ 0 →
      |l2norm (generate_mock_embedding H R content filename D s).1 - 1| < 1 / 1000) ∧
    (l2norm (rawEmbedding H R content filename D s) = 0 →
      (generate_mock_embedding H R content filename D s).1 =
        rawEmbedding H R content filename D s) := by
  constructor
  · intro h
    have hpos : 0 < sumSq (rawEmbedding H R content filename D s) := by
      rcases lt_or_eq_of_le (sumSq_nonneg (rawEmbedding H R content filename D s)) with hlt | heq
      · exact hlt
      · exact absurd ((l2norm_eq_zero_iff _).mpr heq.symm) h
    rw [generate_mock_embedding_eq_normalize]
    have hone : sumSq (normalizeVec (rawEmbedding H R content filename D s)) = 1 :=
      sumSq_normalize_pos _ hpos
    have : l2norm (normalizeVec (rawEmbedding H R content filename D s)) = 1 := by
      rw [l2norm, hone, Real.sqrt_one]
    rw [this]
    norm_num
  · intro h
    rw [generate_mock_embedding_eq_normalize]
    exact normalizeVec_zero _ ((l2norm_eq_zero_iff _).mp h)

/-- Witness for C2 at concrete inputs: a 2-dimensional draw of ones has
nonzero raw norm and yields unit norm; a draw of zeros has zero raw norm
and is returned unmodified. -/
theorem generate_mock_embedding_normalization_witness :
    (l2norm (rawEmbedding hashConst rngOne [] [] 2 ()) ≠ 0 ∧
      |l2norm (generate_mock_embedding hashConst rngOne [] [] 2 ()).1 - 1| < 1 / 1000) ∧
    (l2norm (rawEmbedding hashConst rngZero [] [] 2 ()) = 0 ∧
      (generate_mock_embedding hashConst rngZero [] [] 2 ()).1 =
        rawEmbedding hashConst rngZero [] [] 2 ()) := by
  have h1 : l2norm (rawEmbedding hashConst rngOne [] [] 2 ()) ≠ 0 := by
    rw [rawEmbedding_rngOne]
    have hs : sumSq [(1:ℝ), 1] = 2 := by norm_num [sumSq]
    rw [l2norm, hs]
    positivity
  have h2 : l2norm (rawEmbedding hashConst rngZero [] [] 2 ()) = 0 := by
    rw [rawEmbedding_rngZero]
    have hs : sumSq [(0:ℝ), 0] = 0 := by norm_num [sumSq]
    rw [l2norm, hs, Real.sqrt_zero]
  exact ⟨⟨h1, (generate_mock_embedding_normalization hashConst rngOne [] [] 2 ()).1 h1⟩,
    ⟨h2, (generate_mock_embedding_normalization hashConst rngZero [] [] 2 ()).2 h2⟩⟩

/-- An EXIF value as PIL returns it; `isinstance(v, (str, int, float))`
keeps exactly the first three shapes (image_processing.py line 97). -/
inductive ExifVal where
  | vstr (s : String)
  | vint (n : Int)
  | vfloat (q : ℚ)
  | vother

/-- String form `str(v)` of a primitive EXIF value (non-primitive values
are dropped by the comprehension, so they need no string form). -/
def exifValStr : ExifVal → String
  | .vstr s => s
  | .vint n => toString n
  | .vfloat q => toString q
  | .vother => ""

/-- Whether `isinstance(v, (str, int, float))` holds. -/
def exifPrimitive : ExifVal → Bool
  | .vstr _ => true
  | .vint _ => true
  | .vfloat _ => true
  | .vother => false

/-- What `PIL.Image.open` exposes of a successfully decoded image:
format, mode, size, the `"transparency" in img.info` flag, and the
`_getexif()` result (`none` models both a missing `_getexif` attribute
and a `None` return). -/
structure DecodedImage where
  format : String
  mode : String
  width : ℕ
  height : ℕ
  transparencyInfo : Bool
  exif : Option (List (ℕ × ExifVal))

/-- The dict built by `extract_image_metadata` (image_processing.py
lines 82-111). -/
structure MetadataDict where
  format : String
  mode : String
  size : ℕ × ℕ
  width : ℕ
  height : ℕ
  has_transparency : Bool
  exif : Option (List (String × String))
  extraction_error : Option String
  deriving DecidableEq

/-- Lines 92-98: `if hasattr(img, "_getexif") and img._getexif():` — the
exif dict is included only when `_getexif()` is truthy (non-None and
non-empty), restricted to primitive values via
`{str(k): str(v) for k, v in exif.items() if isinstance(v, (str, int, float))}`. -/
def exifEntry : Option (List (ℕ × ExifVal)) → Option (List (String × String))
  | some (e :: es) =>
      some (((e :: es).filter (fun kv => exifPrimitive kv.2)).map
        (fun kv => (toString kv.1, exifValStr kv.2)))
  | _ => none

/-- The metadata dict of lines 82-89 (plus lines 92-98) for a decoded image. -/
def metadataOfImage (img : DecodedImage) : MetadataDict where
  format := img.format
  mode := img.mode
  size := (img.width, img.height)
  width := img.width
  height := img.height
  has_transparency := img.mode == "RGBA" || img.mode == "LA" || img.transparencyInfo
  exif := exifEntry img.exif
  extraction_error := none

/-- The fallback dict of lines 101-111, returned when anything in the
`try` block raises, with `str(e)` as the extraction error note. -/
def fallbackMetadata (e : String) : MetadataDict where
  format := "unknown"
  mode := "unknown"
  size := (0, 0)
  width := 0
  height := 0
  has_transparency := false
  exif := none
  extraction_error := some e

/-- `ImageProcessingService.extract_image_metadata` (image_processing.py
lines 69-111).  `PIL.Image.open` is an external library, so it is a
parameter `decode` mapping raw bytes either to a decoded image or to the
`str(e)` of the exception it raises; the `except` arm of the source turns
the latter into the fallback dict.  The Lean function is total: it never
fails. -/
def extract_image_metadata (decode : List ℕ → Except String DecodedImage)
    (content : List ℕ) : MetadataDict :=
  match decode content with
  | .ok img => metadataOfImage img
  | .error e => fallbackMetadata e

/-- C9: `extract_image_metadata` is a total function — for every byte
content it returns a dict rather than propagating an exception — and
whenever decoding fails with message `e` it returns the fallback record:
width 0, height 0, `format = "unknown"`, and the explanatory note `e`
stored under `extraction_error`. -/
theorem extract_image_metadata_total_fallback
    (decode : List ℕ → Except String DecodedImage) (content : List ℕ) (e : String)
    (h : decode content = .error e) :
    (extract_image_metadata decode content).width = 0 ∧
    (extract_image_metadata decode content).height = 0 ∧
    (extract_image_metadata decode content).format = "unknown" ∧
    (extract_image_metadata decode content).extraction_error = some e := by
  unfold extract_image_metadata
  rw [h]
  exact ⟨rfl, rfl, rfl, rfl⟩

/-- Witness for C9: a decoder that always fails on concrete non-image
bytes yields the fallback record. -/
theorem extract_image_metadata_total_fallback_witness :
    (fun _ : List ℕ => (Except.error "cannot identify image file" :
        Except String DecodedImage)) [104, 105] = .error "cannot identify image file" ∧
    (extract_image_metadata
      (fun _ => .error "cannot identify image file") [104, 105]).width = 0 ∧
    (extract_image_metadata
      (fun _ => .error "cannot identify image file") [104, 105]).height = 0 ∧
    (extract_image_metadata
      (fun _ => .error "cannot identify image file") [104, 105]).format = "unknown" ∧
    (extract_image_metadata
      (fun _ => .error "cannot identify image file") [104, 105]).extraction_error =
      some "cannot identify image file" := by
  refine ⟨rfl, ?_⟩
  exact extract_image_metadata_total_fallback
    (fun _ => .error "cannot identify image file") [104, 105]
    "cannot identify image file" rfl

/-- A row of the `images` table (app/models/image.py).  UUIDs are
modelled as naturals, timestamps as naturals; `processed_timestamp` is a
nullable column and `embedding_vector` is kept optional so that the
"completed record without an embedding" state is expressible. -/
structure ImageRec where
  id : ℕ
  filename : String
  original_filename : String
  content_type : String
  file_size : ℕ
  file_path : Option String
  upload_timestamp : ℕ
  processed_timestamp : Option ℕ
  embedding_vector : Option (List ℝ)
  image_metadata : Option MetadataDict
  processing_status : String

open Classical in
/-- SQL `WHERE` filtering of a list of rows by an arbitrary predicate
(classical, since predicates over real-valued scores are not decidable). -/
noncomputable def pfilter {α : Type} (P : α → Prop) (l : List α) : List α :=
  l.filter (fun a => decide (P a))

theorem pfilter_nil {α : Type} (P : α → Prop) : pfilter P [] = [] := rfl

open Classical in
theorem pfilter_cons {α : Type} (P : α → Prop) (a : α) (l : List α) :
    pfilter P (a :: l) = if P a then a :: pfilter P l else pfilter P l := by
  by_cases h : P a
  · rw [if_pos h]
    unfold pfilter
    rw [List.filter_cons, if_pos (by simpa using h)]
  · rw [if_neg h]
    unfold pfilter
    rw [List.filter_cons, if_neg (by simpa using h)]

theorem mem_pfilter {α : Type} {P : α → Prop} {a : α} {l : List α} :
    a ∈ pfilter P l ↔ a ∈ l ∧ P a := by
  unfold pfilter
  simp [List.mem_filter]

theorem pfilter_sublist {α : Type} (P : α → Prop) (l : List α) :
    (pfilter P l).Sublist l := List.filter_sublist l

/-- The similarity score the query of vector_service.py line 64 computes
for a row: `1 - Image.embedding_vector.cosine_distance(query_embedding)`,
i.e. cosine similarity between the row's embedding and the query vector. -/
noncomputable def simScore (q : List ℝ) (r : ImageRec) : ℝ :=
  cosineSim (r.embedding_vector.getD []) q

/-- The `WHERE` clauses of `find_similar_images` (vector_service.py lines
66-72): status `completed`, similarity at least `threshold`, and — when a
query image id is given — a different row id. -/
def eligibleRow (q : List ℝ) (excl : Option ℕ) (t : ℝ) (r : ImageRec) : Prop :=
  r.processing_status = "completed" ∧ t ≤ simScore q r ∧ ∀ x, excl = some x → r.id ≠ x

noncomputable def eligibleList (store : List ImageRec) (q : List ℝ)
    (excl : Option ℕ) (t : ℝ) : List ImageRec :=
  pfilter (eligibleRow q excl t) store

/-- What the database may return for the statement of vector_service.py
lines 58-75: all rows passing the `WHERE` clauses, in some order that is
nonincreasing in similarity score (`ORDER BY similarity_score DESC`
constrains nothing else — SQL fixes no order among tied rows), truncated
to `limit` rows. -/
def IsSqlRanking (store : List ImageRec) (q : List ℝ) (excl : Option ℕ)
    (t : ℝ) (lim : ℕ) (rows : List ImageRec) : Prop :=
  ∃ perm : List ImageRec,
    perm.Perm (eligibleList store q excl t) ∧
    perm.Pairwise (fun a b => simScore q b ≤ simScore q a) ∧
    rows = perm.take lim

/-- The pydantic constraint on `SimilarImage.similarity_score`
(schemas/image.py line 96): `Field(..., ge=0, le=1)`.  Constructing a
`SimilarImage` whose score falls outside `[0, 1]` raises a validation
error. -/
def scoresValid (q : List ℝ) (rows : List ImageRec) : Prop :=
  ∀ r ∈ rows, 0 ≤ simScore q r ∧ simScore q r ≤ 1

open Classical in
/-- `VectorService.find_similar_images` (vector_service.py lines 29-106)
as a relation between its arguments and its outcome: a `None` threshold
defaults to `settings.SIMILARITY_THRESHOLD` (lines 50-51); the database
returns some admissible ranking `rows`; the loop of lines 86-93 turns the
rows into `SimilarImage` objects, which succeeds iff every score passes
the schema's `ge=0, le=1` validation — otherwise the raised error is
caught by line 104 and re-raised, modelled as `Except.error ()`. -/
noncomputable def FindSimilarImages (store : List ImageRec) (q : List ℝ)
    (query_image_id : Option ℕ) (lim : ℕ) (threshold : Option ℝ)
    (res : Except Unit (List ImageRec)) : Prop :=
  ∃ rows, IsSqlRanking store q query_image_id (threshold.getD SIMILARITY_THRESHOLD) lim rows ∧
    res = if scoresValid q rows then Except.ok rows else Except.error ()

theorem find_ok_elim {store : List ImageRec} {q : List ℝ} {excl : Option ℕ}
    {lim : ℕ} {thr : Option ℝ} {rows : List ImageRec}
    (h : FindSimilarImages store q excl lim thr (.ok rows)) :
    IsSqlRanking store q excl (thr.getD SIMILARITY_THRESHOLD) lim rows ∧
      scoresValid q rows := by
  obtain ⟨rows', hrank, heq⟩ := h
  by_cases hv : scoresValid q rows'
  · rw [if_pos hv] at heq
    cases heq
    exact ⟨hrank, hv⟩
  · rw [if_neg hv] at heq
    simp at heq

theorem mem_of_ranking {store : List ImageRec} {q : List ℝ} {excl : Option ℕ}
    {t : ℝ} {lim : ℕ} {rows : List ImageRec} {r : ImageRec}
    (h : IsSqlRanking store q excl t lim rows) (hr : r ∈ rows) :
    eligibleRow q excl t r := by
  obtain ⟨perm, hperm, _, hrows⟩ := h
  subst hrows
  have hmem : r ∈ perm := List.mem_of_mem_take hr
  exact (mem_pfilter.mp (hperm.mem_iff.mp hmem)).2

/-- C6: every result returned by a successful `find_similar_images` call
with threshold `t` has similarity score at least `t` — rows below the
threshold are excluded by the `WHERE` clause of line 67, not merely
ordered last. -/
theorem find_similar_images_threshold_holds (store : List ImageRec) (q : List ℝ)
    (excl : Option ℕ) (lim : ℕ) (t : ℝ) (rows : List ImageRec)
    (h : FindSimilarImages store q excl lim (some t) (.ok rows)) :
    ∀ r ∈ rows, t ≤ simScore q r := by
  intro r hr
  have := mem_of_ranking (find_ok_elim h).1 hr
  simpa using this.2.1

/-- A completed stored row with a one-dimensional embedding, for concrete
instantiations. -/
def recA : ImageRec where
  id := 1
  filename := "a.jpg"
  original_filename := "a.jpg"
  content_type := "image/jpeg"
  file_size := 3
  file_path := none
  upload_timestamp := 0
  processed_timestamp := some 0
  embedding_vector := some [1]
  image_metadata := none
  processing_status := "completed"

/-- A second completed stored row with the same embedding as `recA`. -/
def recB : ImageRec where
  id := 2
  filename := "b.jpg"
  original_filename := "b.jpg"
  content_type := "image/jpeg"
  file_size := 3
  file_path := none
  upload_timestamp := 0
  processed_timestamp := some 0
  embedding_vector := some [1]
  image_metadata := none
  processing_status := "completed"

theorem simScore_one (r : ImageRec) (h : r.embedding_vector = some [1]) :
    simScore [1] r = 1 := by
  rw [simScore, h]
  have h1 : sumSq [(1:ℝ)] = 1 := by norm_num [sumSq]
  rw [cosineSim]
  norm_num [dotp, l2norm, h1, Real.sqrt_one]

theorem simScore_negquery (r : ImageRec) (h : r.embedding_vector = some [1]) :
    simScore [-1] r = -1 := by
  rw [simScore, h]
  have h1 : sumSq [(1:ℝ)] = 1 := by norm_num [sumSq]
  have h2 : sumSq [(-1:ℝ)] = 1 := by norm_num [sumSq]
  rw [cosineSim]
  norm_num [dotp, l2norm, h1, h2, Real.sqrt_one]

theorem eligible_recA : eligibleRow [1] none 0 recA := by
  refine ⟨rfl, ?_, ?_⟩
  · rw [simScore_one recA rfl]
    norm_num
  · intro x hx
    simp at hx

theorem eligible_recB : eligibleRow [1] none 0 recB := by
  refine ⟨rfl, ?_, ?_⟩
  · rw [simScore_one recB rfl]
    norm_num
  · intro x hx
    simp at hx

theorem eligList_ab : eligibleList [recA, recB] [1] none 0 = [recA, recB] := by
  unfold eligibleList
  rw [pfilter_cons, if_pos eligible_recA, pfilter_cons, if_pos eligible_recB, pfilter_nil]

theorem scoresValid_ab : scoresValid [1] [recA, recB] := by
  intro r hr
  have hemb : r.embedding_vector = some [1] := by
    rcases List.mem_cons.mp hr with h | h
    · rw [h]
      exact rfl
    · rw [List.mem_singleton] at h
      rw [h]
      exact rfl
  rw [simScore_one r hemb]
  norm_num

theorem pairwise_sorted_ab (u v : ImageRec) (hu : u.embedding_vector = some [1])
    (hv : v.embedding_vector = some [1]) :
    List.Pairwise (fun a b => simScore [1] b ≤ simScore [1] a) [u, v] := by
  refine List.pairwise_cons.mpr ⟨?_, List.pairwise_cons.mpr ⟨?_, List.Pairwise.nil⟩⟩
  · intro b hb
    rw [List.mem_singleton] at hb
    rw [hb, simScore_one v hv, simScore_one u hu]
  · intro b hb
    simp at hb

theorem find_ab : FindSimilarImages [recA, recB] [1] none 5 (some 0) (.ok [recA, recB]) := by
  unfold FindSimilarImages
  simp only [Option.getD_some]
  refine ⟨[recA, recB], ⟨[recA, recB], ?_, pairwise_sorted_ab recA recB rfl rfl, rfl⟩, ?_⟩
  · rw [eligList_ab]
  · rw [if_pos scoresValid_ab]

theorem find_ba : FindSimilarImages [recA, recB] [1] none 5 (some 0) (.ok [recB, recA]) := by
  unfold FindSimilarImages
  simp only [Option.getD_some]
  refine ⟨[recB, recA], ⟨[recB, recA], ?_, pairwise_sorted_ab recB recA rfl rfl, rfl⟩, ?_⟩
  · rw [eligList_ab]
    exact List.Perm.swap recA recB []
  · rw [if_pos]
    intro r hr
    refine scoresValid_ab r ?_
    rcases List.mem_cons.mp hr with h | h
    · rw [h]
      right
      exact List.mem_singleton.mpr rfl
    · rw [List.mem_singleton] at h
      rw [h]
      exact List.mem_cons_self recA [recB]

/-- Witness for C6 at a concrete store and query: both returned rows of a
successful threshold-0 search have score at least 0. -/
theorem find_similar_images_threshold_holds_witness :
    (0:ℝ) ≤ simScore [1] recA ∧ (0:ℝ) ≤ simScore [1] recB :=
  ⟨find_similar_images_threshold_holds [recA, recB] [1] none 5 0 [recA, recB] find_ab
      recA (List.mem_cons_self recA [recB]),
    find_similar_images_threshold_holds [recA, recB] [1] none 5 0 [recA, recB] find_ab
      recB (List.mem_cons.mpr (Or.inr (List.mem_singleton.mpr rfl)))⟩

/-- C3 is false of the code: the query of vector_service.py line 75 orders
by `similarity_score DESC` with no secondary key, so against a store with
two tied completed rows the same invocation admits both ID orders — two
identical rank calls need not return identical ordered ID sequences. -/
theorem find_similar_images_tie_counterexample :
    FindSimilarImages [recA, recB] [1] none 5 (some 0) (.ok [recA, recB]) ∧
    FindSimilarImages [recA, recB] [1] none 5 (some 0) (.ok [recB, recA]) ∧
    [recA, recB].map ImageRec.id ≠ [recB, recA].map ImageRec.id :=
  ⟨find_ab, find_ba, by decide⟩

/-- C3 amended: every successful result is ordered by similarity
descending (nonincreasing scores), and when the limit is at least the
store size two identical invocations return results that are permutations
of each other — but the code supplies no deterministic tie-breaking key,
so the order among equal-similarity candidates is not fixed. -/
theorem find_similar_images_ordering_amended :
    (∀ (store : List ImageRec) (q : List ℝ) (excl : Option ℕ) (lim : ℕ)
        (thr : Option ℝ) (rows : List ImageRec),
        FindSimilarImages store q excl lim thr (.ok rows) →
        rows.Pairwise (fun a b => simScore q b ≤ simScore q a)) ∧
    (∀ (store : List ImageRec) (q : List ℝ) (excl : Option ℕ) (lim : ℕ)
        (thr : Option ℝ) (rows1 rows2 : List ImageRec),
        store.length ≤ lim →
        FindSimilarImages store q excl lim thr (.ok rows1) →
        FindSimilarImages store q excl lim thr (.ok rows2) →
        rows1.Perm rows2) := by
  constructor
  · intro store q excl lim thr rows h
    obtain ⟨⟨perm, _, hsort, hrows⟩, _⟩ := find_ok_elim h
    subst hrows
    exact List.Pairwise.sublist (List.take_sublist lim perm) hsort
  · intro store q excl lim thr rows1 rows2 hlen h1 h2
    obtain ⟨⟨p1, hp1, _, hr1⟩, _⟩ := find_ok_elim h1
    obtain ⟨⟨p2, hp2, _, hr2⟩, _⟩ := find_ok_elim h2
    have hl1 : p1.length ≤ lim := by
      rw [hp1.length_eq]
      exact le_trans (List.Sublist.length_le (pfilter_sublist _ store)) hlen
    have hl2 : p2.length ≤ lim := by
      rw [hp2.length_eq]
      exact le_trans (List.Sublist.length_le (pfilter_sublist _ store)) hlen
    subst hr1
    subst hr2
    rw [List.take_of_length_le hl1, List.take_of_length_le hl2]
    exact hp1.trans hp2.symm

/-- Witness for the amended C3 at a concrete store: the tied result is
sorted, the store fits in the limit, and the two admissible results are
permutations of each other. -/
theorem find_similar_images_ordering_amended_witness :
    List.Pairwise (fun a b => simScore [1] b ≤ simScore [1] a) [recA, recB] ∧
    ([recA, recB] : List ImageRec).length ≤ 5 ∧
    List.Perm [recA, recB] [recB, recA] :=
  ⟨find_similar_images_ordering_amended.1 [recA, recB] [1] none 5 (some 0) [recA, recB] find_ab,
    by norm_num,
    find_similar_images_ordering_amended.2 [recA, recB] [1] none 5 (some 0)
      [recA, recB] [recB, recA] (by norm_num) find_ab find_ba⟩

theorem eligible_recA_neg : eligibleRow [-1] none (-1) recA := by
  refine ⟨rfl, ?_, ?_⟩
  · exact le_of_eq (simScore_negquery recA rfl).symm
  · intro x hx
    simp at hx

theorem eligList_neg : eligibleList [recA] [-1] none (-1) = [recA] := by
  unfold eligibleList
  rw [pfilter_cons, if_pos eligible_recA_neg, pfilter_nil]

theorem notValid_neg : ¬ scoresValid [-1] [recA] := by
  intro h
  have h0 := (h recA (List.mem_cons_self recA [])).1
  rw [simScore_negquery recA rfl] at h0
  norm_num at h0

/-- C5 is false as stated: no clipping into [0,1] exists anywhere in the
code.  Against a completed row with embedding [1], the query [-1] with
threshold -1 produces the raw similarity -1; instead of clipping it into
[0,1], the `SimilarImage` validation (`ge=0, le=1`) fails and
`find_similar_images` raises — the only admissible outcome is an error,
never a success carrying a clipped score. -/
theorem find_similar_images_no_clipping_counterexample :
    FindSimilarImages [recA] [-1] none 5 (some (-1)) (.error ()) ∧
    ∀ rows, ¬ FindSimilarImages [recA] [-1] none 5 (some (-1)) (.ok rows) := by
  constructor
  · unfold FindSimilarImages
    simp only [Option.getD_some]
    refine ⟨[recA], ⟨[recA], ?_, ?_, rfl⟩, ?_⟩
    · rw [eligList_neg]
    · simp
    · rw [if_neg]
      intro hv
      exact notValid_neg (by simpa using hv)
  · intro rows h
    unfold FindSimilarImages at h
    simp only [Option.getD_some] at h
    obtain ⟨rows', ⟨perm, hperm, _, hrows⟩, heq⟩ := h
    rw [eligList_neg] at hperm
    have hp : perm = [recA] := List.perm_singleton.mp hperm
    subst hp
    have ht : List.take 5 [recA] = [recA] := rfl
    rw [ht] at hrows
    subst hrows
    rw [if_neg notValid_neg] at heq
    simp at heq

/-- C5 amended: the search performs no clipping; instead, every
successfully returned row has its raw cosine similarity in [0,1] (the
response schema validates `ge=0, le=1`, and any score outside that range
makes the call fail rather than clip), and whenever the effective
threshold is nonnegative the call always succeeds with every score in
[threshold, 1] ⊆ [0,1], since cosine similarity never exceeds 1. -/
theorem find_similar_images_score_bounds_amended :
    (∀ (store : List ImageRec) (q : List ℝ) (excl : Option ℕ) (lim : ℕ)
        (thr : Option ℝ) (rows : List ImageRec),
        FindSimilarImages store q excl lim thr (.ok rows) →
        ∀ r ∈ rows, 0 ≤ simScore q r ∧ simScore q r ≤ 1) ∧
    (∀ (store : List ImageRec) (q : List ℝ) (excl : Option ℕ) (lim : ℕ)
        (thr : Option ℝ) (res : Except Unit (List ImageRec)),
        0 ≤ thr.getD SIMILARITY_THRESHOLD →
        FindSimilarImages store q excl lim thr res →
        ∃ rows, res = .ok rows ∧ ∀ r ∈ rows, 0 ≤ simScore q r ∧ simScore q r ≤ 1) := by
  constructor
  · intro store q excl lim thr rows h r hr
    exact (find_ok_elim h).2 r hr
  · intro store q excl lim thr res ht h
    obtain ⟨rows, hrank, heq⟩ := h
    have hv : scoresValid q rows := by
      intro r hr
      have he := mem_of_ranking hrank hr
      exact ⟨le_trans ht he.2.1, cosineSim_le_one (r.embedding_vector.getD []) q⟩
    rw [if_pos hv] at heq
    exact ⟨rows, heq, hv⟩

/-- Witness for the amended C5 at a concrete store: the returned score of
a successful call lies in [0,1], and with nonnegative threshold the call
is guaranteed to succeed with validated scores. -/
theorem find_similar_images_score_bounds_amended_witness :
    ((0:ℝ) ≤ simScore [1] recA ∧ simScore [1] recA ≤ 1) ∧
    (∃ rows, (Except.ok [recA, recB] : Except Unit (List ImageRec)) = .ok rows ∧
      ∀ r ∈ rows, 0 ≤ simScore [1] r ∧ simScore [1] r ≤ 1) :=
  ⟨find_similar_images_score_bounds_amended.1 [recA, recB] [1] none 5 (some 0)
      [recA, recB] find_ab recA (List.mem_cons_self recA [recB]),
    find_similar_images_score_bounds_amended.2 [recA, recB] [1] none 5 (some 0)
      (.ok [recA, recB]) (by simp) find_ab⟩

/-- The similarity `1 - (i1.embedding_vector <=> i2.embedding_vector)`
computed for a pair of rows by the raw SQL of `find_duplicate_images`
(vector_service.py line 287). -/
noncomputable def pairSim (p : ImageRec × ImageRec) : ℝ :=
  cosineSim (p.1.embedding_vector.getD []) (p.2.embedding_vector.getD [])

/-- The `WHERE` clauses of the `image_pairs` CTE (vector_service.py lines
290-293): both rows completed, `i1.id < i2.id` (avoiding self-pairs and
double counting), and similarity at least the threshold. -/
def dupEligible (t : ℝ) (p : ImageRec × ImageRec) : Prop :=
  p.1.processing_status = "completed" ∧ p.2.processing_status = "completed" ∧
    p.1.id < p.2.id ∧ t ≤ pairSim p

/-- The rows of the `image_pairs` CTE: the `CROSS JOIN` of the table with
itself (line 289), filtered by the `WHERE` clauses. -/
noncomputable def dupCandidates (store : List ImageRec) (t : ℝ) :
    List (ImageRec × ImageRec) :=
  pfilter (dupEligible t) (store ×ˢ store)

/-- `VectorService.find_duplicate_images` (vector_service.py lines
263-311) as a relation between its arguments and a possible returned list
of `(id1, id2, similarity)` triples: the candidate pairs in some order
nonincreasing in similarity (`ORDER BY similarity DESC` fixes nothing
more), truncated to `limit`, each projected to its two ids and score. -/
def FindDuplicateImages (store : List ImageRec) (t : ℝ) (lim : ℕ)
    (out : List (ℕ × ℕ × ℝ)) : Prop :=
  ∃ perm : List (ImageRec × ImageRec),
    perm.Perm (dupCandidates store t) ∧
    perm.Pairwise (fun p q => pairSim q ≤ pairSim p) ∧
    out = (perm.take lim).map (fun p => (p.1.id, p.2.id, pairSim p))

theorem dupCandidates_key_nodup (store : List ImageRec) (t : ℝ)
    (hnd : (store.map ImageRec.id).Nodup) :
    ((dupCandidates store t).map (fun p => (p.1.id, p.2.id))).Nodup := by
  have hstore : store.Nodup := List.Nodup.of_map ImageRec.id hnd
  have hprod : (store ×ˢ store).Nodup := List.Nodup.product hstore hstore
  have hbig : ((store ×ˢ store).map (fun p : ImageRec × ImageRec =>
      (p.1.id, p.2.id))).Nodup := by
    refine List.Nodup.map_on ?_ hprod
    intro x hx y hy hxy
    have hx1 : x.1 ∈ store := (List.mem_product.mp (by
      rw [show ((x.1, x.2) : ImageRec × ImageRec) = x from rfl]
      exact hx)).1
    have hx2 : x.2 ∈ store := (List.mem_product.mp (by
      rw [show ((x.1, x.2) : ImageRec × ImageRec) = x from rfl]
      exact hx)).2
    have hy1 : y.1 ∈ store := (List.mem_product.mp (by
      rw [show ((y.1, y.2) : ImageRec × ImageRec) = y from rfl]
      exact hy)).1
    have hy2 : y.2 ∈ store := (List.mem_product.mp (by
      rw [show ((y.1, y.2) : ImageRec × ImageRec) = y from rfl]
      exact hy)).2
    have h1 : x.1.id = y.1.id := congrArg Prod.fst hxy
    have h2 : x.2.id = y.2.id := congrArg Prod.snd hxy
    have e1 : x.1 = y.1 := List.inj_on_of_nodup_map hnd hx1 hy1 h1
    have e2 : x.2 = y.2 := List.inj_on_of_nodup_map hnd hx2 hy2 h2
    exact Prod.ext e1 e2
  exact List.Nodup.sublist
    (List.Sublist.map _ (pfilter_sublist (dupEligible t) (store ×ˢ store))) hbig

/-- C7: under the table's primary-key uniqueness of ids, every list
`find_duplicate_images` can return contains no pair with equal ids and no
two entries naming the same unordered id set — each unordered pair of
distinct completed rows is considered at most once via `i1.id < i2.id`. -/
theorem find_duplicate_images_pair_uniqueness (store : List ImageRec) (t : ℝ)
    (lim : ℕ) (out : List (ℕ × ℕ × ℝ))
    (hnd : (store.map ImageRec.id).Nodup)
    (h : FindDuplicateImages store t lim out) :
    (∀ e ∈ out, e.1 ≠ e.2.1) ∧
    out.Pairwise (fun e f =>
      ¬(e.1 = f.1 ∧ e.2.1 = f.2.1) ∧ ¬(e.1 = f.2.1 ∧ e.2.1 = f.1)) := by
  obtain ⟨perm, hperm, _, hout⟩ := h
  subst hout
  have hmemElig : ∀ p ∈ perm, dupEligible t p := by
    intro p hp
    exact (mem_pfilter.mp (hperm.mem_iff.mp hp)).2
  constructor
  · intro e he
    obtain ⟨p, hp, hpe⟩ := List.mem_map.mp he
    have helig := hmemElig p (List.mem_of_mem_take hp)
    subst hpe
    exact Nat.ne_of_lt helig.2.2.1
  · rw [List.pairwise_map]
    have hkey := dupCandidates_key_nodup store t hnd
    have hkeyPairwise : (dupCandidates store t).Pairwise
        (fun p q : ImageRec × ImageRec => (p.1.id, p.2.id) ≠ (q.1.id, q.2.id)) :=
      List.pairwise_map.mp hkey
    have hR : (dupCandidates store t).Pairwise
        (fun p q : ImageRec × ImageRec =>
          ¬(p.1.id = q.1.id ∧ p.2.id = q.2.id) ∧
          ¬(p.1.id = q.2.id ∧ p.2.id = q.1.id)) := by
      refine List.Pairwise.imp_of_mem ?_ hkeyPairwise
      intro p q hp hq hne
      have hpe := (mem_pfilter.mp hp).2
      have hqe := (mem_pfilter.mp hq).2
      constructor
      · intro hsame
        exact hne (Prod.ext hsame.1 hsame.2)
      · intro hswap
        have hlt1 : p.1.id < p.2.id := hpe.2.2.1
        have hlt2 : q.1.id < q.2.id := hqe.2.2.1
        rw [hswap.1, hswap.2] at hlt1
        exact absurd (lt_trans hlt2 hlt1) (lt_irrefl q.1.id)
    have hRsymm : ∀ {x y : ImageRec × ImageRec},
        (¬(x.1.id = y.1.id ∧ x.2.id = y.2.id) ∧
          ¬(x.1.id = y.2.id ∧ x.2.id = y.1.id)) →
        (¬(y.1.id = x.1.id ∧ y.2.id = x.2.id) ∧
          ¬(y.1.id = x.2.id ∧ y.2.id = x.1.id)) := by
      intro x y hxy
      constructor
      · intro hsame
        exact hxy.1 ⟨hsame.1.symm, hsame.2.symm⟩
      · intro hswap
        exact hxy.2 ⟨hswap.2.symm, hswap.1.symm⟩
    have hRperm : perm.Pairwise
        (fun p q : ImageRec × ImageRec =>
          ¬(p.1.id = q.1.id ∧ p.2.id = q.2.id) ∧
          ¬(p.1.id = q.2.id ∧ p.2.id = q.1.id)) :=
      (hperm.pairwise_iff (fun hxy => hRsymm hxy)).mpr hR
    exact List.Pairwise.sublist (List.take_sublist lim perm) hRperm

theorem pairSim_ab : pairSim (recA, recB) = 1 := by
  have h1 : sumSq [(1:ℝ)] = 1 := by norm_num [sumSq]
  show cosineSim (recA.embedding_vector.getD []) (recB.embedding_vector.getD []) = 1
  rw [show recA.embedding_vector = some [1] from rfl,
    show recB.embedding_vector = some [1] from rfl]
  rw [cosineSim]
  norm_num [dotp, l2norm, h1, Real.sqrt_one]

theorem not_dupElig_aa : ¬ dupEligible 0.95 (recA, recA) := by
  intro h
  have := h.2.2.1
  simp [recA] at this

theorem not_dupElig_ba : ¬ dupEligible 0.95 (recB, recA) := by
  intro h
  have := h.2.2.1
  simp [recA, recB] at this

theorem not_dupElig_bb : ¬ dupEligible 0.95 (recB, recB) := by
  intro h
  have := h.2.2.1
  simp [recB] at this

theorem dupElig_ab : dupEligible 0.95 (recA, recB) := by
  refine ⟨rfl, rfl, ?_, ?_⟩
  · simp [recA, recB]
  · rw [pairSim_ab]
    norm_num

theorem dupCandidates_ab : dupCandidates [recA, recB] 0.95 = [(recA, recB)] := by
  unfold dupCandidates
  have hprod : (([recA, recB] : List ImageRec) ×ˢ [recA, recB]) =
      [(recA, recA), (recA, recB), (recB, recA), (recB, recB)] := rfl
  rw [hprod, pfilter_cons, if_neg not_dupElig_aa, pfilter_cons, if_pos dupElig_ab,
    pfilter_cons, if_neg not_dupElig_ba, pfilter_cons, if_neg not_dupElig_bb, pfilter_nil]

theorem find_dup_ab : FindDuplicateImages [recA, recB] 0.95 100 [(1, 2, 1)] := by
  refine ⟨[(recA, recB)], ?_, ?_, ?_⟩
  · rw [dupCandidates_ab]
  · simp
  · have ht : ([(recA, recB)] : List (ImageRec × ImageRec)).take 100 = [(recA, recB)] := rfl
    rw [ht, List.map_singleton, pairSim_ab]
    exact rfl

/-- Witness for C7 at a concrete two-row store: the only admissible
duplicate list is [(1, 2, 1)], whose single entry has distinct ids and
which trivially repeats no unordered id set. -/
theorem find_duplicate_images_pair_uniqueness_witness :
    ((([recA, recB] : List ImageRec).map ImageRec.id).Nodup ∧
      FindDuplicateImages [recA, recB] 0.95 100 [(1, 2, 1)]) ∧
    ((∀ e ∈ ([(1, 2, 1)] : List (ℕ × ℕ × ℝ)), e.1 ≠ e.2.1) ∧
      List.Pairwise (fun e f : ℕ × ℕ × ℝ =>
        ¬(e.1 = f.1 ∧ e.2.1 = f.2.1) ∧ ¬(e.1 = f.2.1 ∧ e.2.1 = f.1)) [(1, 2, 1)]) :=
  ⟨⟨by decide, find_dup_ab⟩,
    find_duplicate_images_pair_uniqueness [recA, recB] 0.95 100 [(1, 2, 1)]
      (by decide) find_dup_ab⟩

/-- The record-creation path of the upload endpoint (images.py lines
64-79): after `process_image` succeeds, an `Image` row is constructed
with `processing_status="completed"`, the embedding, and
`processed_timestamp=datetime.utcnow()` already set, and committed —
the row never enters the store as `pending`. -/
def uploadedRow (newId : ℕ) (fname ctype : String) (fsize : ℕ) (emb : List ℝ)
    (md : Option MetadataDict) (uploadTs procTs : ℕ) : ImageRec where
  id := newId
  filename := fname
  original_filename := fname
  content_type := ctype
  file_size := fsize
  file_path := none
  upload_timestamp := uploadTs
  processed_timestamp := some procTs
  embedding_vector := some emb
  image_metadata := md
  processing_status := "completed"

/-- The commit of images.py lines 77-78: the freshly built row is added
to the table. -/
def upload_image (store : List ImageRec) (newId : ℕ) (fname ctype : String)
    (fsize : ℕ) (emb : List ℝ) (md : Option MetadataDict)
    (uploadTs procTs : ℕ) : List ImageRec :=
  store ++ [uploadedRow newId fname ctype fsize emb md uploadTs procTs]

/-- `VectorService.store_image_embedding` (vector_service.py lines
108-144): look the row up by id; if absent return `False` and leave the
store unchanged; otherwise set the embedding, status `"completed"` and
the processed timestamp together and commit, returning `True`. -/
def completeRow (r : ImageRec) (emb : List ℝ) (now : ℕ) : ImageRec where
  id := r.id
  filename := r.filename
  original_filename := r.original_filename
  content_type := r.content_type
  file_size := r.file_size
  file_path := r.file_path
  upload_timestamp := r.upload_timestamp
  processed_timestamp := some now
  embedding_vector := some emb
  image_metadata := r.image_metadata
  processing_status := "completed"

/-- The lookup-then-update of vector_service.py lines 125-140, with its
found/not-found boolean result. -/
def store_image_embedding (store : List ImageRec) (imageId : ℕ)
    (emb : List ℝ) (now : ℕ) : List ImageRec × Bool :=
  match store.find? (fun r => r.id == imageId) with
  | none => (store, false)
  | some _ =>
      (store.map (fun r => if r.id = imageId then completeRow r emb now else r), true)

/-- The delete endpoint (images.py lines 283-314): remove the row with
the given id. -/
def delete_image (store : List ImageRec) (imageId : ℕ) : List ImageRec :=
  store.filter (fun r => r.id != imageId)

/-- Store states reachable through the operations of the repository:
the empty table, uploads, embedding updates, and deletes. -/
inductive ReachableStore : List ImageRec → Prop where
  | empty : ReachableStore []
  | upload (s : List ImageRec) (newId : ℕ) (fname ctype : String) (fsize : ℕ)
      (emb : List ℝ) (md : Option MetadataDict) (uploadTs procTs : ℕ) :
      ReachableStore s →
      ReachableStore (upload_image s newId fname ctype fsize emb md uploadTs procTs)
  | storeEmb (s : List ImageRec) (imageId : ℕ) (emb : List ℝ) (now : ℕ) :
      ReachableStore s → ReachableStore (store_image_embedding s imageId emb now).1
  | del (s : List ImageRec) (imageId : ℕ) :
      ReachableStore s → ReachableStore (delete_image s imageId)

/-- No row with status `"completed"` lacks an embedding or a processed
timestamp. -/
def completedInvariant (store : List ImageRec) : Prop :=
  ∀ r ∈ store, r.processing_status = "completed" →
    r.embedding_vector.isSome ∧ r.processed_timestamp.isSome

/-- C4 is false as stated: a record accepted by the upload endpoint does
not enter the store in `pending` status — images.py line 72 creates it
directly with `processing_status="completed"`; the freshly uploaded store
holds exactly one row whose status is `"completed"`, not `"pending"`. -/
theorem upload_image_not_pending_counterexample :
    (upload_image [] 1 "a.jpg" "image/jpeg" 3 [1] none 0 0).map
        ImageRec.processing_status = ["completed"] ∧
    ("completed" : String) ≠ "pending" :=
  ⟨rfl, by decide⟩

/-- C4 amended: the upload path inserts records directly in `completed`
status with the embedding and processed timestamp set in the same
creation step (never as `pending`), and `store_image_embedding` sets
embedding, `completed` status and processed timestamp together; hence in
every reachable store state no record has status `completed` with a
missing embedding or missing processed timestamp. -/
theorem image_lifecycle_amended (store : List ImageRec)
    (h : ReachableStore store) : completedInvariant store := by
  induction h with
  | empty =>
      intro r hr
      simp at hr
  | upload s newId fname ctype fsize emb md uploadTs procTs hs ih =>
      intro r hr hc
      unfold upload_image at hr
      rw [List.mem_append] at hr
      rcases hr with h | h
      · exact ih r h hc
      · rw [List.mem_singleton] at h
        subst h
        exact ⟨rfl, rfl⟩
  | storeEmb s imageId emb now hs ih =>
      intro r hr hc
      unfold store_image_embedding at hr
      rcases hfind : s.find? (fun x => x.id == imageId) with _ | r0
      · rw [hfind] at hr
        exact ih r hr hc
      · rw [hfind] at hr
        simp only at hr
        obtain ⟨r1, hr1, hg⟩ := List.mem_map.mp hr
        by_cases hid : r1.id = imageId
        · rw [if_pos hid] at hg
          subst hg
          exact ⟨rfl, rfl⟩
        · rw [if_neg hid] at hg
          subst hg
          exact ih r1 hr1 hc
  | del s imageId hs ih =>
      intro r hr hc
      exact ih r (List.mem_of_mem_filter hr) hc

/-- Witness for the amended C4: the store reached by one upload into the
empty table satisfies the completed-record invariant. -/
theorem image_lifecycle_amended_witness :
    ReachableStore (upload_image [] 1 "a.jpg" "image/jpeg" 3 [1] none 0 0) ∧
    completedInvariant (upload_image [] 1 "a.jpg" "image/jpeg" 3 [1] none 0 0) :=
  ⟨ReachableStore.upload [] 1 "a.jpg" "image/jpeg" 3 [1] none 0 0 ReachableStore.empty,
    image_lifecycle_amended (upload_image [] 1 "a.jpg" "image/jpeg" 3 [1] none 0 0)
      (ReachableStore.upload [] 1 "a.jpg" "image/jpeg" 3 [1] none 0 0
        ReachableStore.empty)⟩

/-- `VectorService.get_image_embedding` (vector_service.py lines
146-186): select the embedding of the row whose id matches AND whose
`processing_status` is `"completed"`; `scalar_one_or_none()` yields
`None` when no such row exists, and the embedding (a list) otherwise. -/
def get_image_embedding (store : List ImageRec) (imageId : ℕ) : Option (List ℝ) :=
  (store.find? (fun r => r.id == imageId && r.processing_status == "completed")).bind
    (fun r => r.embedding_vector)

/-- The HTTP status the `/{image_id}/similar` endpoint answers with
(images.py lines 183-194): `if not query_embedding` — true of both `None`
and an empty list — raises 404; otherwise the request proceeds (200). -/
def find_similar_endpoint_status (store : List ImageRec) (imageId : ℕ) : ℕ :=
  match get_image_embedding store imageId with
  | none => 404
  | some emb => if emb.isEmpty then 404 else 200

/-- C8: a similarity query for an id whose stored record is `pending`
(not `completed`) is reported as 404, never as a successful empty result:
`get_image_embedding` returns `None` for any record not in `completed`
status — under primary-key uniqueness of ids — and the endpoint maps
`None` to 404. -/
theorem pending_query_not_found (store : List ImageRec) (imageId : ℕ)
    (r : ImageRec) (hmem : r ∈ store) (hid : r.id = imageId)
    (hp : r.processing_status = "pending")
    (hnd : (store.map ImageRec.id).Nodup) :
    get_image_embedding store imageId = none ∧
      find_similar_endpoint_status store imageId = 404 := by
  have hfind : store.find?
      (fun x => x.id == imageId && x.processing_status == "completed") = none := by
    rw [List.find?_eq_none]
    intro x hx hpred
    obtain ⟨h1, h2⟩ := Bool.and_eq_true_iff.mp hpred
    have h1n : x.id = imageId := by
      exact beq_iff_eq.mp h1
    have h2s : x.processing_status = "completed" := by
      exact beq_iff_eq.mp h2
    have hxr : x = r := List.inj_on_of_nodup_map hnd hx hmem (by rw [h1n, hid])
    rw [hxr, hp] at h2s
    exact absurd h2s (by decide)
  have hnone : get_image_embedding store imageId = none := by
    rw [get_image_embedding, hfind]
    rfl
  refine ⟨hnone, ?_⟩
  rw [find_similar_endpoint_status, hnone]

/-- A stored row still in `pending` status, for the C8 witness. -/
def recP : ImageRec where
  id := 7
  filename := "p.jpg"
  original_filename := "p.jpg"
  content_type := "image/jpeg"
  file_size := 3
  file_path := none
  upload_timestamp := 0
  processed_timestamp := none
  embedding_vector := some [1]
  image_metadata := none
  processing_status := "pending"

/-- Witness for C8 at a concrete store holding one pending record. -/
theorem pending_query_not_found_witness :
    (recP ∈ [recP] ∧ recP.id = 7 ∧ recP.processing_status = "pending" ∧
      (([recP] : List ImageRec).map ImageRec.id).Nodup) ∧
    (get_image_embedding [recP] 7 = none ∧
      find_similar_endpoint_status [recP] 7 = 404) :=
  ⟨⟨List.mem_cons_self recP [], rfl, rfl, by decide⟩,
    pending_query_not_found [recP] 7 recP (List.mem_cons_self recP []) rfl rfl
      (by decide)⟩
